import Mathlib

/-
Shallow embedding of the core of a small Git implementation (object store,
packfile ingestion, delta reconstruction, side-band demultiplexing, ref
discovery, tree materialization), translated from the Rust sources under
src/src.  Byte buffers are modelled as `List Nat`; 64-bit machine
arithmetic is modelled on `Nat` with explicit reduction modulo 2 ^ 64 where
the Rust code can wrap; fallible code returns `Except` or a dedicated
result type.  External crates are modelled through their interface
contracts: SHA-1 (crate sha1_smol) is implemented from FIPS 180, and the
zlib codec (crate flate2) is an abstract pair of functions with the
round-trip contract passed as a hypothesis where needed.
-/

set_option autoImplicit false
set_option maxRecDepth 200000

namespace BuildYourOwnGit

/-! ### Byte and string helpers -/

/-- Bytes of a Lean string literal; in the embedding this stands for the
UTF-8 bytes of a Rust string (all literals used here are ASCII). -/
def strBytes (s : String) : List Nat := s.data.map Char.toNat

/-- Characters from ASCII bytes; models String::from_utf8_lossy restricted
to the ASCII inputs on which it is applied in this development. -/
def asciiStr (l : List Nat) : String := String.mk (l.map Char.ofNat)

/-- ASCII whitespace bytes, the restriction of char::is_whitespace to the
byte range that occurs in object headers. -/
def isWsB (b : Nat) : Bool := b == 32 || b == 9 || b == 10 || b == 11 || b == 12 || b == 13

/-- Accumulator pass of split_whitespace over bytes: `cur` holds the
current token reversed. -/
def splitWSBGo : List Nat → List Nat → List (List Nat)
  | [], cur => if cur.isEmpty then [] else [cur.reverse]
  | b :: rest, cur =>
    if isWsB b then
      if cur.isEmpty then splitWSBGo rest [] else cur.reverse :: splitWSBGo rest []
    else splitWSBGo rest (b :: cur)

/-- Byte-level model of str::split_whitespace (no empty tokens). -/
def splitWSB (l : List Nat) : List (List Nat) := splitWSBGo l []

/-- Prefix of a string by character count, modelling the byte slice
&s[..n] on the ASCII strings this program handles. -/
def strTake (s : String) (n : Nat) : String := String.mk (s.data.take n)

/-- Remainder of a string after n characters, modelling the byte slice
&s[n..] on ASCII strings. -/
def strDrop (s : String) (n : Nat) : String := String.mk (s.data.drop n)

/-- Model of str::starts_with. -/
def strStartsWith (s pre : String) : Bool := pre.data.isPrefixOf s.data

/-- Accumulator pass of split_whitespace over characters: `cur` holds the
current token reversed. -/
def splitWSCharsGo : List Char → List Char → List String
  | [], cur => if cur.isEmpty then [] else [String.mk cur.reverse]
  | c :: rest, cur =>
    if c.isWhitespace then
      if cur.isEmpty then splitWSCharsGo rest []
      else String.mk cur.reverse :: splitWSCharsGo rest []
    else splitWSCharsGo rest (c :: cur)

/-- Model of str::split_whitespace (no empty tokens). -/
def splitWSStr (s : String) : List String := splitWSCharsGo s.data []

/-- Accumulator pass of str::split on a character predicate (empty pieces
are kept, and there is always at least one piece). -/
def splitOnPredGo (p : Char → Bool) : List Char → List Char → List String
  | [], cur => [String.mk cur.reverse]
  | c :: rest, cur =>
    if p c then String.mk cur.reverse :: splitOnPredGo p rest []
    else splitOnPredGo p rest (c :: cur)

/-- Model of str::split on a character predicate. -/
def splitOnPred (s : String) (p : Char → Bool) : List String := splitOnPredGo p s.data []

/-- Index of the first NUL byte, modelling iter().position(|&b| b == 0). -/
def firstNul : List Nat → Option Nat
  | [] => none
  | b :: rest => if b = 0 then some 0 else (firstNul rest).map (· + 1)

/-- Rust slice &data[a..b] (callers establish a ≤ b ≤ length). -/
def sliceBytes (data : List Nat) (a b : Nat) : List Nat := (data.take b).drop a

/-- ASCII decimal digit byte. -/
def isDigitB (b : Nat) : Bool := 48 ≤ b && b ≤ 57

/-- Byte-level model of str::parse::<usize> on the decimal strings produced
by this program (digits only; usize overflow is not modelled because all
parsed values are lengths that fit usize). -/
def parseNatBytes (l : List Nat) : Option Nat :=
  if !l.isEmpty && l.all isDigitB then
    some (l.foldl (fun a b => a * 10 + (b - 48)) 0)
  else none

/-- Fuelled most-significant-digit-first decimal rendering; fuel is always
given as n + 1, which is sufficient since n / 10 decreases. -/
def decBytesGo : Nat → Nat → List Nat → List Nat
  | 0, _, acc => acc
  | fuel + 1, n, acc =>
    if n < 10 then (48 + n) :: acc
    else decBytesGo fuel (n / 10) ((48 + n % 10) :: acc)

/-- ASCII decimal bytes of n, modelling the decimal Display formatting used
by format! in the Rust sources. -/
def decBytes (n : Nat) : List Nat := decBytesGo (n + 1) n []

/-- Lowercase hexadecimal digit character. -/
def hexDigit (d : Nat) : Char := if d < 10 then Char.ofNat (48 + d) else Char.ofNat (87 + d)

/-- Lowercase hex string of a byte list, modelling hex::encode. -/
def hexEncode (l : List Nat) : String :=
  String.mk ((l.map (fun b => [hexDigit (b / 16 % 16), hexDigit (b % 16)])).flatten)

/-! ### SHA-1 (model of the external sha1_smol crate, from FIPS 180-4) -/

/-- 32-bit left rotation on Nat. -/
def rotl (k x : Nat) : Nat := (x * 2 ^ k + x / 2 ^ (32 - k)) % 4294967296

/-- Big-endian 32-bit word from four bytes. -/
def wordBE (b0 b1 b2 b3 : Nat) : Nat := b0 * 16777216 + b1 * 65536 + b2 * 256 + b3

/-- Group bytes into big-endian words. -/
def wordsOf : List Nat → List Nat
  | b0 :: b1 :: b2 :: b3 :: rest => wordBE b0 b1 b2 b3 :: wordsOf rest
  | _ => []

/-- Big-endian 8-byte rendering of a 64-bit value. -/
def beBytes8 (n : Nat) : List Nat :=
  [n / 2 ^ 56 % 256, n / 2 ^ 48 % 256, n / 2 ^ 40 % 256, n / 2 ^ 32 % 256,
   n / 2 ^ 24 % 256, n / 2 ^ 16 % 256, n / 2 ^ 8 % 256, n % 256]

/-- SHA-1 message padding to a multiple of 64 bytes. -/
def sha1Pad (msg : List Nat) : List Nat :=
  msg ++ 128 :: List.replicate ((64 - (msg.length + 9) % 64) % 64) 0 ++ beBytes8 (msg.length * 8)

/-- Split into 64-byte chunks; fuel bounds the number of chunks. -/
def chunksGo : Nat → List Nat → List (List Nat)
  | 0, _ => []
  | _, [] => []
  | fuel + 1, l => l.take 64 :: chunksGo fuel (l.drop 64)

/-- Extend 16 schedule words to 80; 64 steps of fuel are exactly enough. -/
def extendWGo : Nat → List Nat → List Nat
  | 0, ws => ws
  | fuel + 1, ws =>
    if 80 ≤ ws.length then ws
    else
      extendWGo fuel (ws ++ [rotl 1 ((ws.getD (ws.length - 3) 0 ^^^ ws.getD (ws.length - 8) 0) ^^^
        (ws.getD (ws.length - 14) 0 ^^^ ws.getD (ws.length - 16) 0))])

/-- Round function of SHA-1. -/
def sha1F (i b c d : Nat) : Nat :=
  if i < 20 then (b &&& c) ||| ((4294967295 - b) &&& d)
  else if i < 40 then (b ^^^ c) ^^^ d
  else if i < 60 then ((b &&& c) ||| (b &&& d)) ||| (c &&& d)
  else (b ^^^ c) ^^^ d

/-- Round constants of SHA-1. -/
def sha1K (i : Nat) : Nat :=
  if i < 20 then 1518500249
  else if i < 40 then 1859775393
  else if i < 60 then 2400959708
  else 3395469782

/-- One compression round; the second component counts rounds. -/
def sha1Round (st : (Nat × Nat × Nat × Nat × Nat) × Nat) (w : Nat) :
    (Nat × Nat × Nat × Nat × Nat) × Nat :=
  match st with
  | ((a, b, c, d, e), i) =>
    (((rotl 5 a + sha1F i b c d + e + sha1K i + w) % 4294967296, a, rotl 30 b, c, d), i + 1)

/-- Process one 64-byte chunk. -/
def sha1Chunk (h : Nat × Nat × Nat × Nat × Nat) (chunk : List Nat) : Nat × Nat × Nat × Nat × Nat :=
  match h with
  | (h0, h1, h2, h3, h4) =>
    match (extendWGo 64 (wordsOf chunk)).foldl sha1Round ((h0, h1, h2, h3, h4), 0) with
    | ((a, b, c, d, e), _) =>
      ((h0 + a) % 4294967296, (h1 + b) % 4294967296, (h2 + c) % 4294967296,
       (h3 + d) % 4294967296, (h4 + e) % 4294967296)

/-- The five 32-bit words of the SHA-1 digest of a byte sequence. -/
def sha1Words (msg : List Nat) : Nat × Nat × Nat × Nat × Nat :=
  (chunksGo (sha1Pad msg).length (sha1Pad msg)).foldl sha1Chunk
    (1732584193, 4023233417, 2562383102, 271733878, 3285377520)

/-- Eight lowercase hex characters of one digest word. -/
def hexWord8 (w : Nat) : List Char :=
  [hexDigit (w / 16 ^ 7 % 16), hexDigit (w / 16 ^ 6 % 16), hexDigit (w / 16 ^ 5 % 16),
   hexDigit (w / 16 ^ 4 % 16), hexDigit (w / 16 ^ 3 % 16), hexDigit (w / 16 ^ 2 % 16),
   hexDigit (w / 16 % 16), hexDigit (w % 16)]

/-- 40-character lowercase hex digest, modelling Sha1::digest().to_string(). -/
def sha1Hex (msg : List Nat) : String :=
  match sha1Words msg with
  | (h0, h1, h2, h3, h4) =>
    String.mk (hexWord8 h0 ++ hexWord8 h1 ++ hexWord8 h2 ++ hexWord8 h3 ++ hexWord8 h4)

/-! ### Object store (src/git/object.rs and the storage part of clone.rs) -/

/-- The filesystem under .git/objects, as a partial map from paths to the
raw (compressed) file contents. -/
def Store : Type := String → Option (List Nat)

/-- The empty filesystem. -/
def emptyStore : Store := fun _ => none

/-- fs::write: set the file at a path. -/
def storeSet (st : Store) (path : String) (v : List Nat) : Store :=
  fun p => if p = path then some v else st p

/-- Loose-object path .git/objects/aa/bbbb... built from a 40-hex identity,
as in clone.rs store_raw_object and object.rs read_object / write_blob. -/
def objPath (sha : String) : String := ".git/objects/" ++ strTake sha 2 ++ "/" ++ strDrop sha 2

/-- Errors of src/git/object.rs (enum Error). -/
inductive ObjError
  | ioError
  | invalidFormat
  | decompression
  deriving DecidableEq

/-- clone.rs store_raw_object: hash the full object (header included),
deflate it and write it at the fan-out path; returns the hex identity and
the updated store.  The zlib encoder is the abstract `deflate`. -/
def store_raw_object (deflate : List Nat → List Nat) (data : List Nat) (st : Store) :
    String × Store :=
  let sha := sha1Hex data
  (sha, storeSet st (objPath sha) (deflate data))

/-- Pack object type (clone.rs enum PackObjectType). -/
inductive PackObjectType
  | commit
  | tree
  | blob
  | ofsDelta (ofs : Nat)
  | refDelta (sha : String)
  deriving DecidableEq

/-- PackObjectType::as_str. -/
def PackObjectType.as_str : PackObjectType → String
  | .commit => "commit"
  | .tree => "tree"
  | .blob => "blob"
  | _ => "unknown"

/-- True on the three non-delta kinds. -/
def PackObjectType.is_base : PackObjectType → Bool
  | .commit => true
  | .tree => true
  | .blob => true
  | _ => false

/-- clone.rs store_object: prefix the canonical header
"kind SP decimal-length NUL" and store through store_raw_object. -/
def store_object (deflate : List Nat → List Nat) (obj_type : PackObjectType)
    (data : List Nat) (st : Store) : String × Store :=
  store_raw_object deflate (strBytes obj_type.as_str ++ [32] ++ decBytes data.length ++ [0] ++ data) st

/-- object.rs write_blob: deflate the given canonical bytes and write them
at the fan-out path of the given hash. -/
def write_blob (deflate : List Nat → List Nat) (blob_data : List Nat) (hash : String)
    (st : Store) : Store :=
  storeSet st (objPath hash) (deflate blob_data)

/-- object.rs read_object: check the identity length, read the file at the
fan-out path, inflate it.  The inflate failure path (Error::Decompression)
cannot fire on deflate output by the codec contract and is not modelled. -/
def read_object (inflate : List Nat → List Nat) (st : Store) (object_id : String)
    (expected_hash_size : Nat) : Except ObjError (List Nat) :=
  if object_id.length ≠ expected_hash_size then .error .invalidFormat
  else
    match st (objPath object_id) with
    | none => .error .ioError
    | some content => .ok (inflate content)

/-- object.rs read_blob: read and inflate, split at the first NUL, check the
header is "(blob|tree|commit) SP digits", return kind, parsed size and
content. -/
def read_blob (inflate : List Nat → List Nat) (st : Store) (object_id : String) :
    Except ObjError (String × Nat × List Nat) :=
  match read_object inflate st object_id 40 with
  | .error e => .error e
  | .ok decompressed =>
    match firstNul decompressed with
    | none => .error .invalidFormat
    | some null_pos =>
      let header_parts := splitWSB (decompressed.take null_pos)
      if header_parts.length = 2 then
        let kind := header_parts.getD 0 []
        if kind = strBytes "blob" ∨ kind = strBytes "tree" ∨ kind = strBytes "commit" then
          match parseNatBytes (header_parts.getD 1 []) with
          | none => .error .invalidFormat
          | some size => .ok (asciiStr kind, size, decompressed.drop (null_pos + 1))
        else .error .invalidFormat
      else .error .invalidFormat

/-- object.rs create_file_hash: build "blob SP len NUL content", hash it,
and when should_write is set persist it through write_blob; returns the hex
identity and the resulting store.  The file read is modelled by passing the
file content directly. -/
def create_file_hash (deflate : List Nat → List Nat) (content : List Nat)
    (should_write : Bool) (st : Store) : String × Store :=
  let store := strBytes "blob " ++ decBytes content.length ++ [0] ++ content
  let hash := sha1Hex store
  (hash, if should_write then write_blob deflate store hash st else st)

/-! ### Pack object header parsing (clone.rs parse_pack_object, header part) -/

/-- Errors of the pack object header parsing paths of clone.rs. -/
inductive PackError
  | noData
  | incompleteSize
  | sizeTooLarge
  | tagUnsupported
  | noOfsData
  | incompleteOfs
  | incompleteRefSha
  | unknownType
  | fuelExhausted
  deriving DecidableEq

/-- Size VLI continuation loop of parse_pack_object (lines 622-644): while
the continuation bit of the previous byte is set, read a byte, reject shift
of 64 or more, and or the low 7 bits shifted into the accumulator.  The
usize accumulation wraps modulo 2 ^ 64 as in release-mode Rust.  The fuel
only bounds the recursion and is always sufficient because every step
consumes one byte. -/
def pack_size_vli_go : Nat → List Nat → Nat → Nat → Nat → Nat → Except PackError (Nat × Nat)
  | fuel, data, offset, size, shift, current =>
    if current &&& 128 = 0 then .ok (size, offset)
    else
      match fuel with
      | 0 => .error .fuelExhausted
      | fuel + 1 =>
        if data.length ≤ offset then .error .incompleteSize
        else
          let b := data.getD offset 0
          if 64 ≤ shift then .error .sizeTooLarge
          else
            pack_size_vli_go fuel data (offset + 1)
              (size ||| ((b &&& 127) <<< shift) % 18446744073709551616) (shift + 7) b

/-- OFS-delta VLI continuation loop of read_ofs_delta_offset (lines
737-748): while the continuation bit is set, read a byte and accumulate
ofs = ((ofs + 1) << 7) + (c & 0x7F).  Note the source has no shift-overflow
check here; the usize arithmetic wraps modulo 2 ^ 64 as in release-mode
Rust. -/
def read_ofs_delta_offset_go : Nat → List Nat → Nat → Nat → Nat → Except PackError (Nat × Nat)
  | fuel, data, offset, ofs, c =>
    if c &&& 128 = 0 then .ok (ofs, offset)
    else
      match fuel with
      | 0 => .error .fuelExhausted
      | fuel + 1 =>
        if data.length ≤ offset then .error .incompleteOfs
        else
          let c2 := data.getD offset 0
          read_ofs_delta_offset_go fuel data (offset + 1)
            (((ofs + 1) * 128) % 18446744073709551616 + (c2 &&& 127)) c2

/-- clone.rs read_ofs_delta_offset: decode the big-endian-with-bias OFS
VLI starting at offset; returns the decoded offset and the new cursor. -/
def read_ofs_delta_offset (data : List Nat) (offset : Nat) : Except PackError (Nat × Nat) :=
  if data.length ≤ offset then .error .noOfsData
  else
    let c := data.getD offset 0
    read_ofs_delta_offset_go (data.length + 1) data (offset + 1) (c &&& 127) c

/-- clone.rs parse_pack_object, lines 604-682: the object header part,
up to but excluding the zlib stream (the zlib codec is external).  Returns
the object type, the declared inflated size, and the cursor just past the
header. -/
def parse_pack_object_header (data : List Nat) :
    Except PackError (PackObjectType × Nat × Nat) :=
  if data.isEmpty then .error .noData
  else
    let first := data.getD 0 0
    let obj_type_num := (first >>> 4) &&& 7
    match pack_size_vli_go (data.length + 1) data 1 (first &&& 15) 4 first with
    | .error e => .error e
    | .ok (size, offset) =>
      if obj_type_num = 1 then .ok (.commit, size, offset)
      else if obj_type_num = 2 then .ok (.tree, size, offset)
      else if obj_type_num = 3 then .ok (.blob, size, offset)
      else if obj_type_num = 4 then .error .tagUnsupported
      else if obj_type_num = 6 then
        match read_ofs_delta_offset data offset with
        | .error e => .error e
        | .ok (ofs, offset2) => .ok (.ofsDelta ofs, size, offset2)
      else if obj_type_num = 7 then
        if data.length < offset + 20 then .error .incompleteRefSha
        else .ok (.refDelta (hexEncode (sliceBytes data offset (offset + 20))), size, offset + 20)
      else .error .unknownType

/-! ### Delta interpreter (clone.rs apply_delta) -/

/-- Error sites of apply_delta. -/
inductive DeltaError
  | incompleteBaseSize
  | baseSizeTooLarge
  | incompleteResultSize
  | resultSizeTooLarge
  | copyOutOfBounds
  | insertOutOfBounds
  | invalidCommand
  | resultSizeMismatch
  | fuelExhausted
  deriving DecidableEq

/-- Outcome of the delta interpreter: a result, an error return, or a Rust
index-out-of-bounds failure (the unchecked delta[offset] reads). -/
inductive DRes
  | ok (result : List Nat)
  | err (e : DeltaError)
  | panicked
  deriving DecidableEq

/-- Size VLI of the delta header (the two identical loops at lines 764-787
and 792-815 of apply_delta): 7 bits per byte, starting at shift 0, with
bound check, shift-overflow check, and wrap modulo 2 ^ 64. -/
def delta_size_vli_go (eTrunc eOver : DeltaError) :
    Nat → List Nat → Nat → Nat → Nat → Except DeltaError (Nat × Nat)
  | 0, _, _, _, _ => .error .fuelExhausted
  | fuel + 1, delta, offset, value, shift =>
    if delta.length ≤ offset then .error eTrunc
    else
      let byte := delta.getD offset 0
      if 64 ≤ shift then .error eOver
      else
        let value2 := value ||| ((byte &&& 127) <<< shift) % 18446744073709551616
        if byte &&& 128 = 0 then .ok (value2, offset + 1)
        else delta_size_vli_go eTrunc eOver fuel delta (offset + 1) value2 (shift + 7)

/-- Conditional operand byte for a copy instruction: when the opcode bit is
set, read delta[offset] (out of bounds gives none, the Rust index failure);
otherwise the operand byte defaults to 0. -/
def read_op_byte (delta : List Nat) (cond : Bool) (offset : Nat) : Option (Nat × Nat) :=
  if cond then
    match delta[offset]? with
    | none => none
    | some b => some (b, offset + 1)
  else some (0, offset)

/-- Operand bytes of a copy instruction (lines 826-859): up to four
little-endian offset bytes selected by bits 0-3 and up to three
little-endian size bytes selected by bits 4-6.  Returns copy offset, raw
copy size and the cursor after the operands, or none when a selected
operand byte lies outside the delta buffer. -/
def read_copy_operands (delta : List Nat) (offset : Nat) (cmd : Nat) :
    Option (Nat × Nat × Nat) := do
  let (b0, o0) ← read_op_byte delta (cmd &&& 1 != 0) offset
  let (b1, o1) ← read_op_byte delta (cmd &&& 2 != 0) o0
  let (b2, o2) ← read_op_byte delta (cmd &&& 4 != 0) o1
  let (b3, o3) ← read_op_byte delta (cmd &&& 8 != 0) o2
  let (s0, o4) ← read_op_byte delta (cmd &&& 16 != 0) o3
  let (s1, o5) ← read_op_byte delta (cmd &&& 32 != 0) o4
  let (s2, o6) ← read_op_byte delta (cmd &&& 64 != 0) o5
  some (b0 ||| (b1 <<< 8) ||| (b2 <<< 16) ||| (b3 <<< 24),
        s0 ||| (s1 <<< 8) ||| (s2 <<< 16), o6)

/-- Instruction loop of apply_delta (lines 820-896).  Each iteration
consumes at least the opcode byte, so fuel = delta.length suffices and the
fuelExhausted branch is unreachable from apply_delta. -/
def apply_delta_go (base delta : List Nat) : Nat → Nat → List Nat → DRes
  | 0, _, _ => .err .fuelExhausted
  | fuel + 1, offset, result =>
    if delta.length ≤ offset then .ok result
    else
      let cmd := delta.getD offset 0
      if cmd &&& 128 ≠ 0 then
        match read_copy_operands delta (offset + 1) cmd with
        | none => .panicked
        | some (copy_offset, size_raw, offset2) =>
          let copy_size := if size_raw = 0 then 65536 else size_raw
          if base.length < copy_offset + copy_size then .err .copyOutOfBounds
          else
            apply_delta_go base delta fuel offset2
              (result ++ sliceBytes base copy_offset (copy_offset + copy_size))
      else if cmd ≠ 0 then
        if delta.length < offset + 1 + cmd then .err .insertOutOfBounds
        else
          apply_delta_go base delta fuel (offset + 1 + cmd)
            (result ++ sliceBytes delta (offset + 1) (offset + 1 + cmd))
      else .err .invalidCommand

/-- clone.rs apply_delta: read base-size and result-size VLIs, run the
instruction loop, and check the declared result size. -/
def apply_delta (base delta : List Nat) : DRes :=
  match delta_size_vli_go .incompleteBaseSize .baseSizeTooLarge (delta.length + 1) delta 0 0 0 with
  | .error e => .err e
  | .ok (_, offset1) =>
    match delta_size_vli_go .incompleteResultSize .resultSizeTooLarge (delta.length + 1) delta
        offset1 0 0 with
    | .error e => .err e
    | .ok (result_size, offset2) =>
      match apply_delta_go base delta delta.length offset2 [] with
      | .ok result =>
          if result.length ≠ result_size then .err .resultSizeMismatch else .ok result
      | other => other

/-- Mirror of apply_delta_go computing whether every copy instruction that
the loop reaches has all of its selected operand bytes inside the delta
buffer (the loop then cannot hit the unchecked index reads). -/
def no_truncated_copy_go (base delta : List Nat) : Nat → Nat → Bool
  | 0, _ => true
  | fuel + 1, offset =>
    if delta.length ≤ offset then true
    else
      let cmd := delta.getD offset 0
      if cmd &&& 128 ≠ 0 then
        match read_copy_operands delta (offset + 1) cmd with
        | none => false
        | some (copy_offset, size_raw, offset2) =>
          let copy_size := if size_raw = 0 then 65536 else size_raw
          if base.length < copy_offset + copy_size then true
          else no_truncated_copy_go base delta fuel offset2
      else if cmd ≠ 0 then
        if delta.length < offset + 1 + cmd then true
        else no_truncated_copy_go base delta fuel (offset + 1 + cmd)
      else true

/-- Top-level well-formedness mirror for apply_delta: when either size VLI
fails, the interpreter errors before reaching the loop; otherwise defer to
the loop mirror. -/
def no_truncated_copy (base delta : List Nat) : Bool :=
  match delta_size_vli_go .incompleteBaseSize .baseSizeTooLarge (delta.length + 1) delta 0 0 0 with
  | .error _ => true
  | .ok (_, offset1) =>
    match delta_size_vli_go .incompleteResultSize .resultSizeTooLarge (delta.length + 1) delta
        offset1 0 0 with
    | .error _ => true
    | .ok (_, offset2) => no_truncated_copy_go base delta delta.length offset2

/-! ### OFS-delta resolution (clone.rs process_ofs_deltas, one loop entry) -/

/-- Observable outcome of one iteration of the process_ofs_deltas loop. -/
inductive OfsStep
  | skipped
  | failed (e : DeltaError)
  | panicked
  | stored (full_object : List Nat) (sha : String)
  deriving DecidableEq

/-- One iteration of the loop of process_ofs_deltas (lines 560-594): find
the base content by offset (skip with a warning when absent), apply the
delta, build the full object with a hardcoded "blob" header, store it, and
update both indices.  Returns the step outcome together with the updated
objects map, by-offset map and store.  The usize subtraction
pack_offset - ofs is modelled by truncating Nat subtraction; the underflow
case (ofs larger than pack_offset, a debug abort in Rust) is not exercised
by any theorem. -/
def process_ofs_delta_entry (deflate : List Nat → List Nat)
    (objects : String → Option (List Nat)) (objects_by_offset : Nat → Option (List Nat))
    (st : Store) (pack_offset ofs : Nat) (delta_data : List Nat) :
    OfsStep × (String → Option (List Nat)) × (Nat → Option (List Nat)) × Store :=
  let base_offset := pack_offset - ofs
  match objects_by_offset base_offset with
  | none => (.skipped, objects, objects_by_offset, st)
  | some base_object =>
    match apply_delta base_object delta_data with
    | .err e => (.failed e, objects, objects_by_offset, st)
    | .panicked => (.panicked, objects, objects_by_offset, st)
    | .ok result_content =>
      let full_object := strBytes "blob " ++ decBytes result_content.length ++ [0] ++
        result_content
      let shaSt := store_raw_object deflate full_object st
      (.stored full_object shaSt.1,
       fun s => if s = shaSt.1 then some full_object else objects s,
       fun n => if n = pack_offset then some result_content else objects_by_offset n,
       shaSt.2)

/-! ### Side-band demultiplexing (clone.rs find_pack_start, decode_sideband_data) -/

/-- Window test data[i..i+4] == "PACK" (P A C K = 80 65 67 75). -/
def isPackAt (l : List Nat) : Bool :=
  match l with
  | 80 :: 65 :: 67 :: 75 :: _ => true
  | _ => false

/-- Scan of find_pack_start (lines 258-262): try indices i with
i < data.len().saturating_sub(4) in order. -/
def find_pack_start_go : List Nat → Nat → Nat → Option Nat
  | [], _, _ => none
  | l@(_ :: rest), i, limit =>
    if limit ≤ i then none
    else if isPackAt l then some i
    else find_pack_start_go rest (i + 1) limit

/-- clone.rs find_pack_start: first index of the PACK signature, or none
(the Rust function returns Err there). -/
def find_pack_start (data : List Nat) : Option Nat :=
  find_pack_start_go data 0 (data.length - 4)

/-- Value of one ASCII hex digit byte. -/
def hexDigitVal (b : Nat) : Option Nat :=
  if 48 ≤ b ∧ b ≤ 57 then some (b - 48)
  else if 97 ≤ b ∧ b ≤ 102 then some (b - 87)
  else if 65 ≤ b ∧ b ≤ 70 then some (b - 55)
  else none

/-- Model of u32::from_str_radix(from_utf8_lossy(&data[offset..offset+4]), 16)
restricted to the plain four-hex-digit inputs this program meets. -/
def hexVal4 (data : List Nat) (offset : Nat) : Option Nat :=
  match hexDigitVal (data.getD offset 0), hexDigitVal (data.getD (offset + 1) 0),
      hexDigitVal (data.getD (offset + 2) 0), hexDigitVal (data.getD (offset + 3) 0) with
  | some d0, some d1, some d2, some d3 => some (((d0 * 16 + d1) * 16 + d2) * 16 + d3)
  | _, _, _, _ => none

/-- Byte-level model of str::trim on the ASCII progress text. -/
def trimASCII (l : List Nat) : List Nat :=
  ((l.dropWhile isWsB).reverse.dropWhile isWsB).reverse

/-- Loop of decode_sideband_data (lines 284-330).  Returns the surfaced
progress messages (trimmed payloads of channels 2 and 3) and the decoded
output.  Each iteration advances the offset by at least one byte, so
fuel = data.length suffices. -/
def decode_sideband_go (data : List Nat) : Nat → Nat → List (List Nat) → List Nat →
    List (List Nat) × List Nat
  | 0, _, msgs, decoded => (msgs, decoded)
  | fuel + 1, offset, msgs, decoded =>
    if data.length ≤ offset then (msgs, decoded)
    else
      match (if offset + 4 ≤ data.length then hexVal4 data offset else none) with
      | some length =>
        if length = 0 then decode_sideband_go data fuel (offset + 4) msgs decoded
        else if 4 ≤ length ∧ length ≤ 65520 ∧ offset + length ≤ data.length then
          let pkt_data_start := offset + 4
          let pkt_data_end := offset + length
          if pkt_data_start < pkt_data_end then
            let side_band := data.getD pkt_data_start 0
            if side_band = 1 then
              decode_sideband_go data fuel pkt_data_end msgs
                (decoded ++ sliceBytes data (pkt_data_start + 1) pkt_data_end)
            else if side_band = 2 ∨ side_band = 3 then
              decode_sideband_go data fuel pkt_data_end
                (msgs ++ [trimASCII (sliceBytes data (pkt_data_start + 1) pkt_data_end)]) decoded
            else
              decode_sideband_go data fuel pkt_data_end msgs
                (decoded ++ sliceBytes data pkt_data_start pkt_data_end)
          else decode_sideband_go data fuel pkt_data_end msgs decoded
        else decode_sideband_go data fuel (offset + 1) msgs (decoded ++ [data.getD offset 0])
      | none => decode_sideband_go data fuel (offset + 1) msgs (decoded ++ [data.getD offset 0])

/-- clone.rs decode_sideband_data: fail when no PACK signature exists,
return the input unchanged when PACK is at offset 0, otherwise run the
pkt-line loop.  The surfaced progress messages are returned alongside the
decoded bytes. -/
def decode_sideband_data (data : List Nat) : Except String (List (List Nat) × List Nat) :=
  match find_pack_start data with
  | none => .error "Could not find PACK signature"
  | some 0 => .ok ([], data)
  | some _ => .ok (decode_sideband_go data data.length 0 [] [])

/-! ### Ref discovery (clone.rs parse_refs_response) -/

/-- State threaded through the line loop of parse_refs_response.  The
panicked flag is model bookkeeping for the Rust index abort inside the
capability scan (see applySymrefs): the Rust process stops at the abort,
which the fold models by freezing the state and reporting the abort at the
end — observationally the same outcome for parse_refs_response. -/
structure RefsState where
  refs : List (String × String)
  headRef : String
  headSha : String
  panicked : Bool
  deriving DecidableEq

/-- The two continue-guards at the top of the loop (lines 147-153). -/
def lineSkipped (line : String) : Bool :=
  line == "" || line.length < 4 || strStartsWith line "001e# service=git-upload-pack" ||
    line == "0000"

/-- Whitespace-separated fields of the line after dropping the 4-byte
pkt-line length prefix. -/
def lineFields (line : String) : List String := splitWSStr (strDrop line 4)

/-- One field of the capability scan (line 179): on a field starting with
"symref=HEAD" the source splits the field on the colon and indexes element
1 of the collected vector, which aborts when the field has no colon; the
abort is modelled as none and, once hit, propagates (nothing after the
abort executes). -/
def symrefStepA (acc : Option String) (f : String) : Option String :=
  match acc with
  | none => none
  | some r =>
    if strStartsWith f "symref=HEAD" then (splitOnPred f (fun c => c = ':'))[1]?
    else some r

/-- Fold of the capability scan (lines 177-181): the last field starting
with "symref=HEAD" wins; none reports the index abort on a colon-less
symref field. -/
def applySymrefs (fields : List String) (cur : String) : Option String :=
  fields.foldl symrefStepA (some cur)

/-- Summary of the capability scan independent of the incoming head_ref:
no symref field at all, an abort on a colon-less symref field, or the last
target. -/
inductive SymrefScan
  | noField
  | aborted
  | target (r : String)
  deriving DecidableEq

/-- One field of the summary scan, mirroring symrefStepA. -/
def symrefStepS (acc : SymrefScan) (f : String) : SymrefScan :=
  match acc with
  | .aborted => .aborted
  | acc0 =>
    if strStartsWith f "symref=HEAD" then
      match (splitOnPred f (fun c => c = ':'))[1]? with
      | none => .aborted
      | some r => .target r
    else acc0

/-- The capability-scan summary of a field list. -/
def symrefScanOf (fields : List String) : SymrefScan :=
  fields.foldl symrefStepS .noField

/-- Reading a summary back as the head_ref update it denotes. -/
def symrefInterp : SymrefScan → String → Option String
  | .noField, cur => some cur
  | .aborted, _ => none
  | .target r, _ => some r

/-- One iteration of the line loop of parse_refs_response (lines 146-182).
A state frozen by an earlier capability-scan abort stays frozen. -/
def refs_step (st : RefsState) (line : String) : RefsState :=
  if st.panicked then st
  else if lineSkipped line then st
  else
    match lineFields line with
    | [] => st
    | [_] => st
    | [sha, ref_name] =>
      if sha.length ≠ 40 then st
      else
        { refs := st.refs ++ [(ref_name, sha)],
          headRef := st.headRef,
          headSha := if ref_name = st.headRef then sha else st.headSha,
          panicked := st.panicked }
    | fields =>
      match applySymrefs fields st.headRef with
      | none => { st with panicked := true }
      | some r => { st with headRef := r }

/-- Outcome of parse_refs_response: the refs and the HEAD pair, the NoHead
error, or the index abort of the capability scan. -/
inductive RefsResult
  | ok (refs : List (String × String)) (hd : String × String)
  | error (msg : String)
  | panicked
  deriving DecidableEq

/-- clone.rs parse_refs_response, with the response body already split into
lines (the Rust code iterates body.lines()). -/
def parse_refs_response (lines : List String) : RefsResult :=
  let st := lines.foldl refs_step ⟨[], "", "", false⟩
  if st.panicked then .panicked
  else if st.headSha = "" then .error "No HEAD reference found"
  else .ok st.refs (st.headRef, st.headSha)

/-- The (head_ref, head_sha) pair of a successful ref discovery. -/
def refsHeadOf (r : RefsResult) : Option (String × String) :=
  match r with
  | .ok _ hd => some hd
  | _ => none

/-- A two-field listing line binding ref R to 40-hex hash H. -/
def isListingOf (line R H : String) : Prop :=
  lineSkipped line = false ∧ lineFields line = [H, R] ∧ H.length = 40

instance (line R H : String) : Decidable (isListingOf line R H) := by
  unfold isListingOf; infer_instance

/-! ### write-tree and checkout (write_tree.rs, clone.rs checkout_tree) -/

/-- File type abstraction of std::fs::FileType as used by write_tree.rs. -/
inductive FsFileType
  | dir
  | symlink
  | file
  | other
  deriving DecidableEq

/-- write_tree.rs get_mode_for_file (lines 105-119). -/
def get_mode_for_file : FsFileType → Except String String
  | .dir => .ok "040000"
  | .symlink => .ok "120000"
  | .file => .ok "100644"
  | .other => .error "Unsupported file type"

/-- The directory test of checkout_tree (line 1066): an entry is realized
as a directory and recursed into exactly when its mode string equals
"40000"; otherwise it is written as a file. -/
def checkout_mode_is_dir (mode : String) : Bool := mode == "40000"

/-- One serialized tree entry of write_tree.rs (lines 69-83):
"mode SP name NUL" followed by the 20 raw hash bytes. -/
def write_tree_entry_bytes (mode name : String) (hash_bytes : List Nat) : List Nat :=
  strBytes (mode ++ " " ++ name) ++ [0] ++ hash_bytes

/-! ### Helper lemmas -/

theorem stringMk_ne_empty (cur : List Char) (h : cur ≠ []) : String.mk cur ≠ "" :=
  fun hcon => h (congrArg String.data hcon)

theorem splitWSCharsGo_mem_ne_empty :
    ∀ (l cur : List Char) (t : String), t ∈ splitWSCharsGo l cur → t ≠ "" := by
  intro l
  induction l with
  | nil =>
    intro cur t ht
    simp only [splitWSCharsGo] at ht
    by_cases hc : cur.isEmpty = true
    · rw [if_pos hc] at ht
      exact absurd ht (List.not_mem_nil t)
    · rw [if_neg hc] at ht
      have hcur : cur ≠ [] := by simpa [List.isEmpty_iff] using hc
      have h1 : t = String.mk cur.reverse := by simpa using ht
      rw [h1]
      exact stringMk_ne_empty cur.reverse (by simpa using hcur)
  | cons c rest ih =>
    intro cur t ht
    simp only [splitWSCharsGo] at ht
    by_cases hw : c.isWhitespace = true
    · rw [if_pos hw] at ht
      by_cases hc : cur.isEmpty = true
      · rw [if_pos hc] at ht
        exact ih [] t ht
      · rw [if_neg hc] at ht
        have hcur : cur ≠ [] := by simpa [List.isEmpty_iff] using hc
        rcases List.mem_cons.mp ht with hh | hh
        · rw [hh]
          exact stringMk_ne_empty cur.reverse (by simpa using hcur)
        · exact ih [] t hh
    · rw [if_neg hw] at ht
      exact ih (c :: cur) t ht

theorem mem_splitWSStr_ne_empty (s t : String) (ht : t ∈ splitWSStr s) : t ≠ "" :=
  splitWSCharsGo_mem_ne_empty s.data [] t ht

theorem symrefStep_interp (s : SymrefScan) (cur f : String) :
    symrefStepA (symrefInterp s cur) f = symrefInterp (symrefStepS s f) cur := by
  cases s with
  | noField =>
    by_cases hm : strStartsWith f "symref=HEAD" = true
    · cases hp : (splitOnPred f (fun c => c = ':'))[1]? <;>
        simp [symrefStepA, symrefStepS, symrefInterp, hm, hp]
    · simp [symrefStepA, symrefStepS, symrefInterp, hm]
  | aborted => rfl
  | target r0 =>
    by_cases hm : strStartsWith f "symref=HEAD" = true
    · cases hp : (splitOnPred f (fun c => c = ':'))[1]? <;>
        simp [symrefStepA, symrefStepS, symrefInterp, hm, hp]
    · simp [symrefStepA, symrefStepS, symrefInterp, hm]

theorem symref_fold_interp (fields : List String) : ∀ (s : SymrefScan) (cur : String),
    List.foldl symrefStepA (symrefInterp s cur) fields =
      symrefInterp (List.foldl symrefStepS s fields) cur := by
  induction fields with
  | nil => intro s cur; rfl
  | cons f rest ih =>
    intro s cur
    rw [List.foldl_cons, List.foldl_cons, symrefStep_interp]
    exact ih (symrefStepS s f) cur

theorem applySymrefs_of_noField (fields : List String) (cur : String)
    (h : symrefScanOf fields = .noField) : applySymrefs fields cur = some cur := by
  have h2 := symref_fold_interp fields .noField cur
  unfold symrefScanOf at h
  rw [h] at h2
  exact h2

theorem applySymrefs_of_target (fields : List String) (cur r : String)
    (h : symrefScanOf fields = .target r) : applySymrefs fields cur = some r := by
  have h2 := symref_fold_interp fields .noField cur
  unfold symrefScanOf at h
  rw [h] at h2
  exact h2

theorem storeSet_same (st : Store) (p : String) (v : List Nat) : storeSet st p v p = some v := by
  simp [storeSet]

/-! ### Claim theorems: C1, C2, C4, C9 and the closed counterexamples -/

/-- Claim C1 (code_bug evidence): one iteration of process_ofs_deltas, in a
state where the pass-1 objects map records the base content [97, 98, 99] as
a tree object and the by-offset index holds that content at the base
offset, persists the delta target with a hardcoded "blob" header instead of
inheriting the tree kind of its base. -/
theorem c1_ofs_delta_kind_hardcoded_blob :
    (process_ofs_delta_entry (fun b => b)
      (fun s => if s = "78da3e61cffb521d63b8b82e7587c1f184478a4b" then
        some (strBytes "tree 3" ++ [0] ++ [97, 98, 99]) else none)
      (fun n => if n = 0 then some [97, 98, 99] else none)
      emptyStore 100 100 [3, 3, 144, 3]).1 =
      OfsStep.stored (strBytes "blob 3" ++ [0] ++ [97, 98, 99])
        "f2ba8f84ab5c1bce84a7b441cb1959cfc7093b7f" ∧
    (fun s => if s = "78da3e61cffb521d63b8b82e7587c1f184478a4b" then
        some (strBytes "tree 3" ++ [0] ++ [97, 98, 99]) else none)
      "78da3e61cffb521d63b8b82e7587c1f184478a4b" =
      some (strBytes "tree 3" ++ [0] ++ [97, 98, 99]) ∧
    (strBytes "blob 3" ++ [0] ++ [97, 98, 99]).take 4 ≠ strBytes "tree" := by
  refine ⟨rfl, by decide, by decide⟩

/-- Claim C2 (counterexample): the delta of the claim, with declared
result-size 23, one Copy(offset=0, size=19) and one Insert of "umps\x0A",
applied to the 19-byte base, is rejected with a result-size mismatch (the
reconstruction has 19 + 5 = 24 bytes), rather than succeeding as claimed. -/
theorem c2_delta_example_result_size_23_fails :
    apply_delta (strBytes "The quick brown fox")
      [19, 23, 144, 19, 5, 117, 109, 112, 115, 10] = .err .resultSizeMismatch := by
  decide

/-- Claim C2 (amended): with the declared result-size corrected to 24, the
same instruction stream applied to the same base succeeds and yields
"The quick brown foxumps\x0A" of length 24. -/
theorem c2_delta_example_result_size_24_succeeds :
    apply_delta (strBytes "The quick brown fox")
      [19, 24, 144, 19, 5, 117, 109, 112, 115, 10] =
      .ok (strBytes "The quick brown foxumps\n") ∧
    (strBytes "The quick brown foxumps\n").length = 24 := by
  refine ⟨by decide, by decide⟩

/-- Claim C4 (code_bug evidence): the pack-header Size VLI and the delta
size VLIs reject a shift of 64 or more and reject truncation, but the
OFS-delta VLI decoder has no overflow check: on ten continuation bytes,
whose decoding needs more than 64 accumulator bits, it wraps modulo 2 ^ 64
and returns Ok instead of an error. -/
theorem c4_ofs_vli_overflow_not_rejected :
    read_ofs_delta_offset (List.replicate 10 128 ++ [0]) 0 =
      .ok (9295997013522923648, 11) ∧
    read_ofs_delta_offset [128] 0 = .error .incompleteOfs ∧
    parse_pack_object_header (255 :: List.replicate 10 128) = .error .sizeTooLarge ∧
    apply_delta [] (List.replicate 10 128 ++ [0]) = .err .baseSizeTooLarge := by
  refine ⟨rfl, rfl, rfl, by decide⟩

/-- Claim C9 (code_bug evidence): write-tree serializes directory entries
with mode "040000" (get_mode_for_file), which is not the "40000" the claim
states, and which the tree materializer of checkout_tree does not recognize
as a directory. -/
theorem c9_write_tree_dir_mode_mismatch :
    get_mode_for_file FsFileType.dir = .ok "040000" ∧
    checkout_mode_is_dir "040000" = false ∧
    checkout_mode_is_dir "40000" = true ∧
    ("040000" = "40000" → False) ∧
    write_tree_entry_bytes "040000" "sub" [1] = strBytes "040000 sub" ++ [0] ++ [1] := by
  refine ⟨rfl, by decide, by decide, by decide, by decide⟩

/-- Claim C10 (counterexample): the delta [0, 0, 145] declares base and
result sizes 0 and is then truncated in the middle of a copy instruction
(opcode 145 selects an offset operand byte that is absent); the interpreter
hits the unchecked index delta[offset] and aborts instead of returning an
error. -/
theorem c10_truncated_copy_aborts :
    apply_delta [] [0, 0, 145] = DRes.panicked := by
  decide

/-! ### Claim C10: totality of the delta interpreter -/

theorem apply_delta_go_no_panic (base delta : List Nat) :
    ∀ (fuel offset : Nat) (acc : List Nat),
      no_truncated_copy_go base delta fuel offset = true →
      apply_delta_go base delta fuel offset acc ≠ DRes.panicked := by
  intro fuel
  induction fuel with
  | zero => intro offset acc _ hcon; exact DRes.noConfusion hcon
  | succ n ih =>
    intro offset acc h
    have h2 : (if delta.length ≤ offset then true
      else
        if delta.getD offset 0 &&& 128 ≠ 0 then
          match read_copy_operands delta (offset + 1) (delta.getD offset 0) with
          | none => false
          | some (co, sr, o2) =>
            if base.length < co + (if sr = 0 then 65536 else sr) then true
            else no_truncated_copy_go base delta n o2
        else if delta.getD offset 0 ≠ 0 then
          if delta.length < offset + 1 + delta.getD offset 0 then true
          else no_truncated_copy_go base delta n (offset + 1 + delta.getD offset 0)
        else true) = true := h
    show ¬ (if delta.length ≤ offset then DRes.ok acc
      else
        if delta.getD offset 0 &&& 128 ≠ 0 then
          match read_copy_operands delta (offset + 1) (delta.getD offset 0) with
          | none => DRes.panicked
          | some (co, sr, o2) =>
            if base.length < co + (if sr = 0 then 65536 else sr) then
              DRes.err .copyOutOfBounds
            else
              apply_delta_go base delta n o2
                (acc ++ sliceBytes base co (co + (if sr = 0 then 65536 else sr)))
        else if delta.getD offset 0 ≠ 0 then
          if delta.length < offset + 1 + delta.getD offset 0 then DRes.err .insertOutOfBounds
          else
            apply_delta_go base delta n (offset + 1 + delta.getD offset 0)
              (acc ++ sliceBytes delta (offset + 1) (offset + 1 + delta.getD offset 0))
        else DRes.err .invalidCommand) = DRes.panicked
    by_cases hlen : delta.length ≤ offset
    · rw [if_pos hlen]
      exact fun hcon => DRes.noConfusion hcon
    · rw [if_neg hlen]
      rw [if_neg hlen] at h2
      by_cases hc : delta.getD offset 0 &&& 128 ≠ 0
      · rw [if_pos hc]
        rw [if_pos hc] at h2
        cases hro : read_copy_operands delta (offset + 1) (delta.getD offset 0) with
        | none =>
          rw [hro] at h2
          exact absurd h2 (by simp)
        | some t =>
          rcases t with ⟨co, sr, o2⟩
          rw [hro] at h2
          have h3 : (if base.length < co + (if sr = 0 then 65536 else sr) then true
            else no_truncated_copy_go base delta n o2) = true := h2
          show ¬ (if base.length < co + (if sr = 0 then 65536 else sr) then
              DRes.err .copyOutOfBounds
            else
              apply_delta_go base delta n o2
                (acc ++ sliceBytes base co (co + (if sr = 0 then 65536 else sr)))) =
              DRes.panicked
          by_cases hb : base.length < co + (if sr = 0 then 65536 else sr)
          · rw [if_pos hb]
            exact fun hcon => DRes.noConfusion hcon
          · rw [if_neg hb]
            rw [if_neg hb] at h3
            exact ih o2 _ h3
      · rw [if_neg hc]
        rw [if_neg hc] at h2
        by_cases hz : delta.getD offset 0 ≠ 0
        · rw [if_pos hz]
          rw [if_pos hz] at h2
          by_cases hins : delta.length < offset + 1 + delta.getD offset 0
          · rw [if_pos hins]
            exact fun hcon => DRes.noConfusion hcon
          · rw [if_neg hins]
            rw [if_neg hins] at h2
            exact ih (offset + 1 + delta.getD offset 0) _ h2
        · rw [if_neg hz]
          exact fun hcon => DRes.noConfusion hcon

/-- Claim C10 (amended): the delta interpreter returns a result or an error
on every pair (base, delta) in which each copy instruction reached by the
loop has all of its selected operand bytes inside the delta buffer; a delta
truncated in the middle of a copy instruction instead aborts on an
unchecked index read (see the counterexample). -/
theorem c10_apply_delta_total_without_truncated_copy (base delta : List Nat)
    (h : no_truncated_copy base delta = true) :
    apply_delta base delta ≠ DRes.panicked := by
  unfold no_truncated_copy at h
  unfold apply_delta
  cases h1 : delta_size_vli_go .incompleteBaseSize .baseSizeTooLarge (delta.length + 1)
      delta 0 0 0 with
  | error e => exact fun hcon => DRes.noConfusion hcon
  | ok v1 =>
    rcases v1 with ⟨bs, o1⟩
    rw [h1] at h
    have hA : (match delta_size_vli_go DeltaError.incompleteResultSize
        DeltaError.resultSizeTooLarge (delta.length + 1) delta o1 0 0 with
      | Except.error _ => true
      | Except.ok (_, offset2) => no_truncated_copy_go base delta delta.length offset2) =
        true := h
    show ¬ (match delta_size_vli_go DeltaError.incompleteResultSize
        DeltaError.resultSizeTooLarge (delta.length + 1) delta o1 0 0 with
      | Except.error e => DRes.err e
      | Except.ok (result_size, offset2) =>
        match apply_delta_go base delta delta.length offset2 [] with
        | DRes.ok result =>
          if result.length ≠ result_size then DRes.err .resultSizeMismatch else DRes.ok result
        | other => other) = DRes.panicked
    cases h2 : delta_size_vli_go .incompleteResultSize .resultSizeTooLarge (delta.length + 1)
        delta o1 0 0 with
    | error e => exact fun hcon => DRes.noConfusion hcon
    | ok v2 =>
      rcases v2 with ⟨rs, o2⟩
      rw [h2] at hA
      have h3 : no_truncated_copy_go base delta delta.length o2 = true := hA
      show ¬ (match apply_delta_go base delta delta.length o2 [] with
        | DRes.ok result =>
          if result.length ≠ rs then DRes.err .resultSizeMismatch else DRes.ok result
        | other => other) = DRes.panicked
      cases h4 : apply_delta_go base delta delta.length o2 [] with
      | ok r =>
        show ¬ (if r.length ≠ rs then DRes.err .resultSizeMismatch else DRes.ok r) =
          DRes.panicked
        by_cases hsz : r.length ≠ rs
        · rw [if_pos hsz]
          exact fun hcon => DRes.noConfusion hcon
        · rw [if_neg hsz]
          exact fun hcon => DRes.noConfusion hcon
      | err e => exact fun hcon => DRes.noConfusion hcon
      | panicked => exact absurd h4 (apply_delta_go_no_panic base delta delta.length o2 [] h3)

/-- Claim C10 (witness): a concrete benign delta satisfies the side
condition and the interpreter does not abort on it. -/
theorem c10_witness :
    no_truncated_copy [97] [1, 1, 145, 0, 1] = true ∧
    apply_delta [97] [1, 1, 145, 0, 1] ≠ DRes.panicked :=
  ⟨by decide, c10_apply_delta_total_without_truncated_copy [97] [1, 1, 145, 0, 1] (by decide)⟩

/-! ### Claim C8: idempotent persistence -/

/-- Claim C8: re-storing the same bytes writes the same compressed content
at the same content-addressed path, so the second call leaves the store
byte-identical; this holds for clone.rs store_raw_object and for object.rs
write_blob alike. -/
theorem c8_store_idempotent (deflate : List Nat → List Nat) (data blob_data : List Nat)
    (hash : String) (st : Store) :
    (store_raw_object deflate data (store_raw_object deflate data st).2).2 =
      (store_raw_object deflate data st).2 ∧
    write_blob deflate blob_data hash (write_blob deflate blob_data hash st) =
      write_blob deflate blob_data hash st := by
  constructor
  · funext p
    by_cases hp : p = objPath (sha1Hex data) <;> simp [store_raw_object, storeSet, hp]
  · funext p
    by_cases hp : p = objPath hash <;> simp [write_blob, storeSet, hp]

/-! ### Claim C6: side-band channel 3 -/

/-- Claim C6 (counterexample): a response holding a channel-3 frame with
payload "error" followed by a channel-1 frame carrying pack bytes is
decoded without failing: the channel-3 text is surfaced as a progress
message exactly like channel-2 text, processing continues, and the later
channel-1 payload is still delivered. -/
theorem c6_channel3_does_not_terminate :
    decode_sideband_data (strBytes "000a" ++ [3] ++ strBytes "error" ++
      strBytes "000d" ++ [1] ++ strBytes "PACKxxxx") =
      .ok ([strBytes "error"], strBytes "PACKxxxx") := by
  rfl

/-- Claim C6 (amended): inside decode_sideband_data, a well-formed pkt-line
frame whose first payload byte is channel 3 is handled exactly as a
channel-2 frame: its payload text is trimmed and surfaced as a progress
message and the loop continues at the next frame; it does not terminate
the decoding. -/
theorem c6_sideband_channel3_is_progress (data : List Nat) (fuel offset L : Nat)
    (msgs : List (List Nat)) (decoded : List Nat)
    (hhex : hexVal4 data offset = some L) (hL4 : 4 < L) (hLmax : L ≤ 65520)
    (hlen : offset + L ≤ data.length)
    (hch : data.getD (offset + 4) 0 = 2 ∨ data.getD (offset + 4) 0 = 3) :
    decode_sideband_go data (fuel + 1) offset msgs decoded =
      decode_sideband_go data fuel (offset + L)
        (msgs ++ [trimASCII (sliceBytes data (offset + 5) (offset + L))]) decoded := by
  have hoff : ¬ (data.length ≤ offset) := by omega
  have h4 : offset + 4 ≤ data.length := by omega
  have hL0 : ¬ (L = 0) := by omega
  have hcond : 4 ≤ L ∧ L ≤ 65520 ∧ offset + L ≤ data.length := by omega
  have hse : offset + 4 < offset + L := by omega
  have hch1 : ¬ (data.getD (offset + 4) 0 = 1) := by rcases hch with h | h <;> omega
  simp only [decode_sideband_go, if_neg hoff, if_pos h4, hhex, if_neg hL0, if_pos hcond,
    if_pos hse, if_neg hch1, if_pos hch]

/-- Claim C6 (witness): the step equation instantiated on the concrete
channel-3 frame of the counterexample input. -/
theorem c6_witness :
    hexVal4 (strBytes "000a" ++ [3] ++ strBytes "error" ++ strBytes "000d" ++ [1] ++
      strBytes "PACKxxxx") 0 = some 10 ∧
    decode_sideband_go (strBytes "000a" ++ [3] ++ strBytes "error" ++ strBytes "000d" ++ [1] ++
        strBytes "PACKxxxx") 4 0 [] [] =
      decode_sideband_go (strBytes "000a" ++ [3] ++ strBytes "error" ++ strBytes "000d" ++ [1] ++
        strBytes "PACKxxxx") 3 (0 + 10)
        ([] ++ [trimASCII (sliceBytes (strBytes "000a" ++ [3] ++ strBytes "error" ++
          strBytes "000d" ++ [1] ++ strBytes "PACKxxxx") (0 + 5) (0 + 10))]) [] :=
  ⟨by decide,
   c6_sideband_channel3_is_progress _ 3 0 10 [] [] (by decide) (by decide) (by decide)
     (by decide) (by decide)⟩

/-! ### Claim C5: ref discovery -/

/-- Claim C5 (counterexample): an advertisement that lists
refs/heads/main with a 40-hex hash before the capability line carrying
symref=HEAD:refs/heads/main satisfies the hypotheses of the claim (the
symref capability is present and the ref is listed with its hash), yet
discovery fails with "No HEAD reference found" instead of returning the
pair, because the code matches head_ref only against listings seen after
the capability line. -/
theorem c5_listing_before_symref_fails :
    parse_refs_response
      ["003faaaaaaaaaaaaaaaaaaaaaaaaaaaaaaaaaaaaaaaa refs/heads/main",
       "00a0bbbbbbbbbbbbbbbbbbbbbbbbbbbbbbbbbbbbbbbb HEAD\x00multi_ack symref=HEAD:refs/heads/main"] =
      .error "No HEAD reference found" ∧
    refsHeadOf (parse_refs_response
      ["003faaaaaaaaaaaaaaaaaaaaaaaaaaaaaaaaaaaaaaaa refs/heads/main",
       "00a0bbbbbbbbbbbbbbbbbbbbbbbbbbbbbbbbbbbbbbbb HEAD\x00multi_ack symref=HEAD:refs/heads/main"]) =
      none := by
  refine ⟨rfl, rfl⟩

/-- A capability line holding a colon-less symref=HEAD field aborts ref
discovery at the index into the colon split (clone.rs line 179), even when
a well-formed symref=HEAD field follows it; the model reports the abort. -/
theorem refs_symref_without_colon_aborts :
    parse_refs_response
      ["00a0aaaaaaaaaaaaaaaaaaaaaaaaaaaaaaaaaaaaaaaa HEAD\x00multi_ack symref=HEAD symref=HEAD:refs/heads/main"] =
      RefsResult.panicked := by
  rfl

/-! ### Claim C5: amended ref discovery theorem -/

theorem refs_step_skip (st : RefsState) (l : String) (h : lineSkipped l = true) :
    refs_step st l = st := by
  unfold refs_step
  by_cases hp : st.panicked = true
  · rw [if_pos hp]
  · rw [if_neg hp, if_pos h]

theorem refs_step_short0 (st : RefsState) (l : String) (hp : st.panicked = false)
    (hsk : ¬ lineSkipped l = true) (hf : lineFields l = []) : refs_step st l = st := by
  unfold refs_step
  rw [if_neg (by rw [hp]; exact Bool.false_ne_true), if_neg hsk, hf]

theorem refs_step_short1 (st : RefsState) (l x : String) (hp : st.panicked = false)
    (hsk : ¬ lineSkipped l = true) (hf : lineFields l = [x]) : refs_step st l = st := by
  unfold refs_step
  rw [if_neg (by rw [hp]; exact Bool.false_ne_true), if_neg hsk, hf]

theorem refs_step_listing (st : RefsState) (l sha ref_name : String)
    (hp : st.panicked = false) (hsk : ¬ lineSkipped l = true)
    (hf : lineFields l = [sha, ref_name]) :
    refs_step st l = if sha.length ≠ 40 then st else
      { refs := st.refs ++ [(ref_name, sha)],
        headRef := st.headRef,
        headSha := if ref_name = st.headRef then sha else st.headSha,
        panicked := st.panicked } := by
  unfold refs_step
  rw [if_neg (by rw [hp]; exact Bool.false_ne_true), if_neg hsk, hf]

theorem refs_step_caps_ok (st : RefsState) (l f1 f2 f3 : String) (frest : List String)
    (r : String) (hp : st.panicked = false) (hsk : ¬ lineSkipped l = true)
    (hf : lineFields l = f1 :: f2 :: f3 :: frest)
    (hsym : applySymrefs (f1 :: f2 :: f3 :: frest) st.headRef = some r) :
    refs_step st l = { st with headRef := r } := by
  unfold refs_step
  rw [if_neg (by rw [hp]; exact Bool.false_ne_true), if_neg hsk, hf]
  show (match applySymrefs (f1 :: f2 :: f3 :: frest) st.headRef with
      | none => { st with panicked := true }
      | some r2 => { st with headRef := r2 }) = { st with headRef := r }
  rw [hsym]

theorem refs_fold_neutral :
    ∀ (lines : List String) (st : RefsState),
      st.headRef = "" → st.headSha = "" → st.panicked = false →
      (∀ l ∈ lines, symrefScanOf (lineFields l) = .noField) →
      (lines.foldl refs_step st).headRef = "" ∧ (lines.foldl refs_step st).headSha = "" ∧
        (lines.foldl refs_step st).panicked = false := by
  intro lines
  induction lines with
  | nil => intro st h1 h2 h3 _; exact ⟨h1, h2, h3⟩
  | cons l rest ih =>
    intro st h1 h2 h3 hall
    rw [List.foldl_cons]
    have hrest : ∀ x ∈ rest, symrefScanOf (lineFields x) = .noField :=
      fun x hx => hall x (List.mem_cons_of_mem l hx)
    have hstep : (refs_step st l).headRef = "" ∧ (refs_step st l).headSha = "" ∧
        (refs_step st l).panicked = false := by
      by_cases hsk : lineSkipped l = true
      · rw [refs_step_skip st l hsk]; exact ⟨h1, h2, h3⟩
      · cases hf : lineFields l with
        | nil => rw [refs_step_short0 st l h3 hsk hf]; exact ⟨h1, h2, h3⟩
        | cons a tail =>
          cases tail with
          | nil => rw [refs_step_short1 st l a h3 hsk hf]; exact ⟨h1, h2, h3⟩
          | cons b tail2 =>
            cases tail2 with
            | nil =>
              rw [refs_step_listing st l a b h3 hsk hf]
              by_cases hlen : a.length ≠ 40
              · rw [if_pos hlen]; exact ⟨h1, h2, h3⟩
              · rw [if_neg hlen]
                refine ⟨h1, ?_, h3⟩
                have hb : b ≠ "" := by
                  apply mem_splitWSStr_ne_empty (strDrop l 4)
                  have : b ∈ lineFields l := by rw [hf]; simp
                  exact this
                show (if b = st.headRef then a else st.headSha) = ""
                rw [if_neg (by rw [h1]; exact hb)]
                exact h2
            | cons c tail3 =>
              have hsym := hall l (List.mem_cons_self l rest)
              rw [hf] at hsym
              rw [refs_step_caps_ok st l a b c tail3 st.headRef h3 hsk hf
                (applySymrefs_of_noField (a :: b :: c :: tail3) st.headRef hsym)]
              exact ⟨h1, h2, h3⟩
    exact ih (refs_step st l) hstep.1 hstep.2.1 hstep.2.2 hrest

theorem refs_fold_tracks :
    ∀ (lines : List String) (st : RefsState) (R H : String),
      st.headRef = R → st.panicked = false →
      (∀ l ∈ lines, symrefScanOf (lineFields l) = .noField) →
      (∀ l ∈ lines, ∀ h2, isListingOf l R h2 → h2 = H) →
      ((lines.foldl refs_step st).headRef = R ∧
       (lines.foldl refs_step st).panicked = false ∧
       (st.headSha = H → (lines.foldl refs_step st).headSha = H) ∧
       ((∃ l ∈ lines, isListingOf l R H) → (lines.foldl refs_step st).headSha = H)) := by
  intro lines
  induction lines with
  | nil =>
    intro st R H h1 hp _ _
    exact ⟨h1, hp, fun h => h, fun hex => absurd hex (by simp)⟩
  | cons l rest ih =>
    intro st R H h1 hp hnone hforce
    rw [List.foldl_cons]
    have hnr : ∀ x ∈ rest, symrefScanOf (lineFields x) = .noField :=
      fun x hx => hnone x (List.mem_cons_of_mem l hx)
    have hfr : ∀ x ∈ rest, ∀ h2, isListingOf x R h2 → h2 = H :=
      fun x hx => hforce x (List.mem_cons_of_mem l hx)
    by_cases hsk : lineSkipped l = true
    · rw [refs_step_skip st l hsk]
      have ihr := ih st R H h1 hp hnr hfr
      refine ⟨ihr.1, ihr.2.1, ihr.2.2.1, ?_⟩
      rintro ⟨l2, hl2, hlist⟩
      rcases List.mem_cons.mp hl2 with rfl | hmem
      · exact absurd hlist.1 (by simp [hsk])
      · exact ihr.2.2.2 ⟨l2, hmem, hlist⟩
    · cases hf : lineFields l with
      | nil =>
        rw [refs_step_short0 st l hp hsk hf]
        have ihr := ih st R H h1 hp hnr hfr
        refine ⟨ihr.1, ihr.2.1, ihr.2.2.1, ?_⟩
        rintro ⟨l2, hl2, hlist⟩
        rcases List.mem_cons.mp hl2 with rfl | hmem
        · have := hlist.2.1; rw [hf] at this; exact absurd this (by simp)
        · exact ihr.2.2.2 ⟨l2, hmem, hlist⟩
      | cons a tail =>
        cases tail with
        | nil =>
          rw [refs_step_short1 st l a hp hsk hf]
          have ihr := ih st R H h1 hp hnr hfr
          refine ⟨ihr.1, ihr.2.1, ihr.2.2.1, ?_⟩
          rintro ⟨l2, hl2, hlist⟩
          rcases List.mem_cons.mp hl2 with rfl | hmem
          · have := hlist.2.1; rw [hf] at this; simp at this
          · exact ihr.2.2.2 ⟨l2, hmem, hlist⟩
        | cons b tail2 =>
          cases tail2 with
          | nil =>
            rw [refs_step_listing st l a b hp hsk hf]
            by_cases hlen : a.length ≠ 40
            · rw [if_pos hlen]
              have ihr := ih st R H h1 hp hnr hfr
              refine ⟨ihr.1, ihr.2.1, ihr.2.2.1, ?_⟩
              rintro ⟨l2, hl2, hlist⟩
              rcases List.mem_cons.mp hl2 with rfl | hmem
              · have h40 := hlist.2.2
                have := hlist.2.1
                rw [hf] at this
                have ha : a = H := by
                  have := List.head_eq_of_cons_eq this
                  exact this
                exact absurd (ha ▸ h40) hlen
              · exact ihr.2.2.2 ⟨l2, hmem, hlist⟩
            · rw [if_neg hlen]
              by_cases hbR : b = R
              · have hlist0 : isListingOf l R a := by
                  refine ⟨by simpa using hsk, ?_, by omega⟩
                  rw [hf, hbR]
                have haH : a = H := hforce l (List.mem_cons_self l rest) a hlist0
                have hsha2 : (if b = st.headRef then a else st.headSha) = H := by
                  rw [if_pos (by rw [h1, hbR]), haH]
                have ihr := ih
                  { refs := st.refs ++ [(b, a)], headRef := st.headRef,
                    headSha := if b = st.headRef then a else st.headSha,
                    panicked := st.panicked } R H h1 hp hnr hfr
                exact ⟨ihr.1, ihr.2.1, fun _ => ihr.2.2.1 hsha2, fun _ => ihr.2.2.1 hsha2⟩
              · have hsha2 : (if b = st.headRef then a else st.headSha) = st.headSha := by
                  rw [if_neg (by rw [h1]; exact hbR)]
                have ihr := ih
                  { refs := st.refs ++ [(b, a)], headRef := st.headRef,
                    headSha := if b = st.headRef then a else st.headSha,
                    panicked := st.panicked } R H h1 hp hnr hfr
                refine ⟨ihr.1, ihr.2.1, fun hh => ihr.2.2.1 (by rw [hsha2]; exact hh), ?_⟩
                rintro ⟨l2, hl2, hlist⟩
                rcases List.mem_cons.mp hl2 with rfl | hmem
                · have := hlist.2.1
                  rw [hf] at this
                  have hb2 : b = R := by
                    have := List.tail_eq_of_cons_eq this
                    exact List.head_eq_of_cons_eq this
                  exact absurd hb2 hbR
                · exact ihr.2.2.2 ⟨l2, hmem, hlist⟩
          | cons c tail3 =>
            have hsym := hnone l (List.mem_cons_self l rest)
            rw [hf] at hsym
            rw [refs_step_caps_ok st l a b c tail3 st.headRef hp hsk hf
              (applySymrefs_of_noField (a :: b :: c :: tail3) st.headRef hsym)]
            have ihr := ih st R H h1 hp hnr hfr
            refine ⟨ihr.1, ihr.2.1, fun hh => ihr.2.2.1 hh, ?_⟩
            rintro ⟨l2, hl2, hlist⟩
            rcases List.mem_cons.mp hl2 with rfl | hmem
            · have := hlist.2.1; rw [hf] at this; simp at this
            · exact ihr.2.2.2 ⟨l2, hmem, hlist⟩

/-- Claim C5 (amended): for an advertisement pre ++ capability-line ++ post
in which no pre or post line carries a symref=HEAD capability field, the
capability line is not skipped, has at least three whitespace fields and
its capability scan yields target R (so in particular every symref=HEAD
field in it carries a colon and does not abort the scan), every two-field
40-hex listing of R in post carries hash H, and at least one such listing
exists — that is, the listing of R appears after the capability line —
ref discovery returns head_ref = R and head_sha = H.  The original claim,
which allows the listing of R to appear anywhere, fails (see the
counterexample); an advertisement whose capability line carries a
colon-less symref=HEAD field instead aborts at the split index (see
refs_symref_without_colon_aborts) and is excluded here. -/
theorem c5_refs_discovery_after_symref (pre : List String) (cap : String)
    (post : List String) (R H : String)
    (hpre : ∀ l ∈ pre, symrefScanOf (lineFields l) = SymrefScan.noField)
    (hcsk : lineSkipped cap = false)
    (hcfields : ∃ f1 f2 f3 frest, lineFields cap = f1 :: f2 :: f3 :: frest)
    (hcsym : symrefScanOf (lineFields cap) = SymrefScan.target R)
    (hpost_none : ∀ l ∈ post, symrefScanOf (lineFields l) = SymrefScan.noField)
    (hpost_forced : ∀ l ∈ post, ∀ h2, isListingOf l R h2 → h2 = H)
    (hpost_exists : ∃ l ∈ post, isListingOf l R H) :
    refsHeadOf (parse_refs_response (pre ++ cap :: post)) = some (R, H) := by
  have hHne : H ≠ "" := by
    rcases hpost_exists with ⟨l0, _, hl⟩
    intro hcon
    have h40 := hl.2.2
    rw [hcon] at h40
    simp at h40
  simp only [parse_refs_response]
  rw [List.foldl_append, List.foldl_cons]
  have hpre2 := refs_fold_neutral pre ⟨[], "", "", false⟩ rfl rfl rfl hpre
  rcases hcfields with ⟨f1, f2, f3, frest, hcf⟩
  rw [hcf] at hcsym
  rw [refs_step_caps_ok (pre.foldl refs_step ⟨[], "", "", false⟩) cap f1 f2 f3 frest R
    hpre2.2.2 (by simp [hcsk]) hcf
    (applySymrefs_of_target (f1 :: f2 :: f3 :: frest)
      (pre.foldl refs_step ⟨[], "", "", false⟩).headRef R hcsym)]
  have htr := refs_fold_tracks post
    { pre.foldl refs_step ⟨[], "", "", false⟩ with headRef := R } R H rfl hpre2.2.2
    hpost_none hpost_forced
  have hsha := htr.2.2.2 hpost_exists
  rw [if_neg (by rw [htr.2.1]; exact Bool.false_ne_true)]
  rw [if_neg (by rw [hsha]; exact hHne)]
  show some (_, _) = some (R, H)
  rw [htr.1, hsha]

/-- Claim C5 (witness): the amended theorem instantiated on a concrete
well-formed advertisement. -/
theorem c5_witness :
    lineSkipped
      "00a0aaaaaaaaaaaaaaaaaaaaaaaaaaaaaaaaaaaaaaaa HEAD\x00multi_ack symref=HEAD:refs/heads/main agent=git/2.0" =
      false ∧
    refsHeadOf (parse_refs_response
      (["001e# service=git-upload-pack"] ++
        "00a0aaaaaaaaaaaaaaaaaaaaaaaaaaaaaaaaaaaaaaaa HEAD\x00multi_ack symref=HEAD:refs/heads/main agent=git/2.0" ::
        ["003faaaaaaaaaaaaaaaaaaaaaaaaaaaaaaaaaaaaaaaa refs/heads/main", "0000"])) =
      some ("refs/heads/main", "aaaaaaaaaaaaaaaaaaaaaaaaaaaaaaaaaaaaaaaa") := by
  refine ⟨by decide, ?_⟩
  refine c5_refs_discovery_after_symref ["001e# service=git-upload-pack"]
    "00a0aaaaaaaaaaaaaaaaaaaaaaaaaaaaaaaaaaaaaaaa HEAD\x00multi_ack symref=HEAD:refs/heads/main agent=git/2.0"
    ["003faaaaaaaaaaaaaaaaaaaaaaaaaaaaaaaaaaaaaaaa refs/heads/main", "0000"]
    "refs/heads/main" "aaaaaaaaaaaaaaaaaaaaaaaaaaaaaaaaaaaaaaaa"
    (by decide) (by decide)
    ⟨"aaaaaaaaaaaaaaaaaaaaaaaaaaaaaaaaaaaaaaaa", "HEAD\x00multi_ack",
      "symref=HEAD:refs/heads/main", ["agent=git/2.0"], by decide⟩
    (by decide) (by decide) ?_
    ⟨"003faaaaaaaaaaaaaaaaaaaaaaaaaaaaaaaaaaaaaaaa refs/heads/main", by decide, by decide⟩
  intro l hl h2 hlist
  rcases List.mem_cons.mp hl with rfl | hl2
  · have hf := hlist.2.1
    have hexp : lineFields "003faaaaaaaaaaaaaaaaaaaaaaaaaaaaaaaaaaaaaaaa refs/heads/main" =
        ["aaaaaaaaaaaaaaaaaaaaaaaaaaaaaaaaaaaaaaaa", "refs/heads/main"] := by decide
    rw [hexp] at hf
    simp at hf
    exact hf.symm
  · rcases List.mem_cons.mp hl2 with rfl | hl3
    · exact absurd hlist.1 (by decide)
    · exact absurd hl3 (List.not_mem_nil l)

/-! ### Claim C3: decimal rendering and parsing lemmas -/

theorem decBytesGo_eq_digits :
    ∀ (fuel n : Nat) (acc : List Nat), n ≠ 0 → n < fuel →
      decBytesGo fuel n acc = ((Nat.digits 10 n).reverse.map (fun d => 48 + d)) ++ acc := by
  intro fuel
  induction fuel with
  | zero => intro n acc h0 h1; omega
  | succ f ih =>
    intro n acc h0 h1
    simp only [decBytesGo]
    by_cases hlt : n < 10
    · rw [if_pos hlt]
      have hd : Nat.digits 10 n = [n] := by
        rw [Nat.digits_def' (by norm_num) (Nat.pos_of_ne_zero h0)]
        rw [Nat.mod_eq_of_lt hlt, Nat.div_eq_of_lt hlt]
        simp
      rw [hd]
      simp
    · rw [if_neg hlt]
      have h10 : n / 10 ≠ 0 := by
        intro hcon
        exact hlt ((Nat.div_eq_zero_iff (by norm_num : 0 < 10)).mp hcon)
      have hdiv : n / 10 < n := Nat.div_lt_self (Nat.pos_of_ne_zero h0) (by norm_num)
      rw [ih (n / 10) ((48 + n % 10) :: acc) h10 (by omega)]
      rw [Nat.digits_def' (by norm_num : (1:Nat) < 10) (Nat.pos_of_ne_zero h0)]
      simp [List.reverse_cons, List.map_append, List.append_assoc]

theorem decBytes_eq_digits (n : Nat) (h : n ≠ 0) :
    decBytes n = (Nat.digits 10 n).reverse.map (fun d => 48 + d) := by
  unfold decBytes
  rw [decBytesGo_eq_digits (n + 1) n [] h (by omega)]
  simp

theorem decBytes_mem_bounds (n b : Nat) (hb : b ∈ decBytes n) : 48 ≤ b ∧ b ≤ 57 := by
  by_cases h0 : n = 0
  · subst h0
    simp [decBytes, decBytesGo] at hb
    omega
  · rw [decBytes_eq_digits n h0] at hb
    simp only [List.mem_map, List.mem_reverse] at hb
    rcases hb with ⟨d, hd, rfl⟩
    have := Nat.digits_lt_base (by norm_num) hd
    omega

theorem decBytes_ne_nil (n : Nat) : decBytes n ≠ [] := by
  by_cases h0 : n = 0
  · subst h0; decide
  · rw [decBytes_eq_digits n h0]
    simp [Nat.digits_ne_nil_iff_ne_zero.mpr h0]

theorem foldl_digits_val (L : List Nat) : ∀ (a : Nat), (∀ d ∈ L, d < 10) →
    ((L.reverse.map (fun d => 48 + d)).foldl (fun x b => x * 10 + (b - 48)) a) =
      a * 10 ^ L.length + Nat.ofDigits 10 L := by
  induction L with
  | nil => intro a _; simp
  | cons d L ih =>
    intro a hall
    rw [List.reverse_cons, List.map_append, List.foldl_append]
    rw [ih a (fun x hx => hall x (List.mem_cons_of_mem d hx))]
    simp only [List.map_cons, List.map_nil, List.foldl_cons, List.foldl_nil]
    have hd : d < 10 := hall d (List.mem_cons_self d L)
    rw [Nat.ofDigits_cons]
    have h48 : 48 + d - 48 = d := by omega
    rw [h48, List.length_cons, pow_succ]
    ring

theorem parse_decBytes (n : Nat) : parseNatBytes (decBytes n) = some n := by
  by_cases h0 : n = 0
  · subst h0; decide
  · unfold parseNatBytes
    have hne : (decBytes n).isEmpty = false := by
      simp [List.isEmpty_iff, decBytes_ne_nil n]
    have hall : (decBytes n).all isDigitB = true := by
      rw [List.all_eq_true]
      intro b hb
      have := decBytes_mem_bounds n b hb
      simp only [isDigitB, Bool.and_eq_true, decide_eq_true_eq]
      omega
    rw [if_pos (by rw [hne, hall]; rfl)]
    rw [decBytes_eq_digits n h0]
    rw [foldl_digits_val (Nat.digits 10 n) 0 (fun d hd => Nat.digits_lt_base (by norm_num) hd)]
    rw [Nat.ofDigits_digits]
    simp

/-! ### Claim C3: header layout lemmas -/

theorem firstNul_append (xs ys : List Nat) (h : ∀ b ∈ xs, b ≠ 0) :
    firstNul (xs ++ 0 :: ys) = some xs.length := by
  induction xs with
  | nil => simp [firstNul]
  | cons b rest ih =>
    have hb : b ≠ 0 := h b (List.mem_cons_self b rest)
    rw [List.cons_append]
    show (if b = 0 then some 0 else (firstNul (rest ++ 0 :: ys)).map (· + 1)) = _
    rw [if_neg hb, ih (fun x hx => h x (List.mem_cons_of_mem b hx))]
    rfl

theorem splitWSBGo_nonws (t : List Nat) : ∀ (rest cur : List Nat),
    (∀ b ∈ t, isWsB b = false) →
    splitWSBGo (t ++ rest) cur = splitWSBGo rest (t.reverse ++ cur) := by
  induction t with
  | nil => intro rest cur _; simp
  | cons b t ih =>
    intro rest cur hall
    have hb : isWsB b = false := hall b (List.mem_cons_self b t)
    rw [List.cons_append]
    show (if isWsB b = true then _ else splitWSBGo (t ++ rest) (b :: cur)) = _
    rw [if_neg (by rw [hb]; exact Bool.false_ne_true)]
    rw [ih rest (b :: cur) (fun x hx => hall x (List.mem_cons_of_mem b hx))]
    simp [List.reverse_cons, List.append_assoc]

theorem splitWSBGo_single (t : List Nat) (h : t ≠ []) (hn : ∀ b ∈ t, isWsB b = false) :
    splitWSBGo t [] = [t] := by
  have hgo := splitWSBGo_nonws t [] [] hn
  rw [List.append_nil] at hgo
  rw [hgo, List.append_nil]
  show (if t.reverse.isEmpty = true then ([] : List (List Nat)) else [t.reverse.reverse]) = [t]
  rw [if_neg (by simp [List.isEmpty_iff, h]), List.reverse_reverse]

theorem splitWSB_two (t1 t2 : List Nat) (h1 : t1 ≠ []) (h2 : t2 ≠ [])
    (n1 : ∀ b ∈ t1, isWsB b = false) (n2 : ∀ b ∈ t2, isWsB b = false) :
    splitWSB (t1 ++ 32 :: t2) = [t1, t2] := by
  unfold splitWSB
  rw [splitWSBGo_nonws t1 (32 :: t2) [] n1, List.append_nil]
  show (if isWsB 32 = true then
      if t1.reverse.isEmpty = true then splitWSBGo t2 []
      else t1.reverse.reverse :: splitWSBGo t2 []
    else _) = [t1, t2]
  rw [if_pos (by decide), if_neg (by simp [List.isEmpty_iff, h1]), List.reverse_reverse]
  rw [splitWSBGo_single t2 h2 n2]

theorem sha1Hex_length (msg : List Nat) : (sha1Hex msg).length = 40 := by
  unfold sha1Hex
  rcases hw : sha1Words msg with ⟨h0, h1, h2, h3, h4⟩
  show (String.mk (hexWord8 h0 ++ hexWord8 h1 ++ hexWord8 h2 ++ hexWord8 h3 ++
    hexWord8 h4)).length = 40
  show (hexWord8 h0 ++ hexWord8 h1 ++ hexWord8 h2 ++ hexWord8 h3 ++ hexWord8 h4).length = 40
  simp [hexWord8]

/-! ### Claim C3: the round trip -/

theorem read_blob_after_store (deflate inflate : List Nat → List Nat)
    (hcodec : ∀ b, inflate (deflate b) = b) (kindB : List Nat) (kindS : String)
    (B : List Nat) (st : Store)
    (hne : kindB ≠ [])
    (hnz : ∀ b ∈ kindB, b ≠ 0)
    (hnw : ∀ b ∈ kindB, isWsB b = false)
    (hmatch : kindB = strBytes "blob" ∨ kindB = strBytes "tree" ∨ kindB = strBytes "commit")
    (hascii : asciiStr kindB = kindS) :
    read_blob inflate
      (store_raw_object deflate (kindB ++ [32] ++ decBytes B.length ++ [0] ++ B) st).2
      (store_raw_object deflate (kindB ++ [32] ++ decBytes B.length ++ [0] ++ B) st).1 =
      .ok (kindS, B.length, B) := by
  have hdw : ∀ b ∈ decBytes B.length, isWsB b = false := by
    intro b hb
    have := decBytes_mem_bounds B.length b hb
    simp only [isWsB]
    simp only [Bool.or_eq_false_iff]
    refine ⟨⟨⟨⟨⟨?_, ?_⟩, ?_⟩, ?_⟩, ?_⟩, ?_⟩ <;> simp only [beq_eq_false_iff_ne] <;> omega
  have hdz : ∀ b ∈ decBytes B.length, b ≠ 0 := by
    intro b hb
    have := decBytes_mem_bounds B.length b hb
    omega
  have hxsz : ∀ b ∈ kindB ++ 32 :: decBytes B.length, b ≠ 0 := by
    intro b hb
    rcases List.mem_append.mp hb with hh | hh
    · exact hnz b hh
    · rcases List.mem_cons.mp hh with rfl | hh2
      · omega
      · exact hdz b hh2
  set full := kindB ++ [32] ++ decBytes B.length ++ [0] ++ B with hfulldef
  have hassoc : full = (kindB ++ 32 :: decBytes B.length) ++ 0 :: B := by
    rw [hfulldef]
    simp [List.append_assoc]
  have h_nul : firstNul full = some (kindB ++ 32 :: decBytes B.length).length := by
    rw [hassoc]
    exact firstNul_append (kindB ++ 32 :: decBytes B.length) B hxsz
  have h_take : full.take (kindB ++ 32 :: decBytes B.length).length =
      kindB ++ 32 :: decBytes B.length := by
    rw [hassoc]
    exact List.take_left (kindB ++ 32 :: decBytes B.length) (0 :: B)
  have hassoc2 : full = ((kindB ++ 32 :: decBytes B.length) ++ [0]) ++ B := by
    rw [hassoc]
    simp [List.append_assoc]
  have h_drop : full.drop ((kindB ++ 32 :: decBytes B.length).length + 1) = B := by
    have hlen2 : ((kindB ++ 32 :: decBytes B.length) ++ [0]).length =
        (kindB ++ 32 :: decBytes B.length).length + 1 := by
      rw [List.length_append]
      rfl
    rw [hassoc2, ← hlen2]
    exact List.drop_left ((kindB ++ 32 :: decBytes B.length) ++ [0]) B
  have h_split : splitWSB (full.take (kindB ++ 32 :: decBytes B.length).length) =
      [kindB, decBytes B.length] := by
    rw [h_take]
    exact splitWSB_two kindB (decBytes B.length) hne (decBytes_ne_nil B.length) hnw hdw
  show read_blob inflate (storeSet st (objPath (sha1Hex full)) (deflate full)) (sha1Hex full) =
    .ok (kindS, B.length, B)
  have h_read : read_object inflate (storeSet st (objPath (sha1Hex full)) (deflate full))
      (sha1Hex full) 40 = .ok full := by
    unfold read_object
    rw [if_neg (by rw [sha1Hex_length]; omega)]
    rw [storeSet_same]
    show Except.ok (inflate (deflate full)) = Except.ok full
    rw [hcodec full]
  unfold read_blob
  rw [h_read]
  show (match firstNul full with
    | none => Except.error ObjError.invalidFormat
    | some null_pos =>
      if (splitWSB (full.take null_pos)).length = 2 then
        if (splitWSB (full.take null_pos)).getD 0 [] = strBytes "blob" ∨
            (splitWSB (full.take null_pos)).getD 0 [] = strBytes "tree" ∨
            (splitWSB (full.take null_pos)).getD 0 [] = strBytes "commit" then
          match parseNatBytes ((splitWSB (full.take null_pos)).getD 1 []) with
          | none => Except.error ObjError.invalidFormat
          | some size =>
            Except.ok (asciiStr ((splitWSB (full.take null_pos)).getD 0 []), size,
              full.drop (null_pos + 1))
        else Except.error ObjError.invalidFormat
      else Except.error ObjError.invalidFormat) = Except.ok (kindS, B.length, B)
  rw [h_nul]
  show (if (splitWSB (full.take (kindB ++ 32 :: decBytes B.length).length)).length = 2 then _
    else Except.error ObjError.invalidFormat) = Except.ok (kindS, B.length, B)
  rw [h_split]
  show (if [kindB, decBytes B.length].length = 2 then
      if [kindB, decBytes B.length].getD 0 [] = strBytes "blob" ∨
          [kindB, decBytes B.length].getD 0 [] = strBytes "tree" ∨
          [kindB, decBytes B.length].getD 0 [] = strBytes "commit" then
        match parseNatBytes ([kindB, decBytes B.length].getD 1 []) with
        | none => Except.error ObjError.invalidFormat
        | some size =>
          Except.ok (asciiStr ([kindB, decBytes B.length].getD 0 []), size,
            full.drop ((kindB ++ 32 :: decBytes B.length).length + 1))
      else Except.error ObjError.invalidFormat
    else Except.error ObjError.invalidFormat) = Except.ok (kindS, B.length, B)
  rw [if_pos (show [kindB, decBytes B.length].length = 2 from rfl)]
  rw [if_pos (by simpa using hmatch)]
  show (match parseNatBytes (decBytes B.length) with
    | none => Except.error ObjError.invalidFormat
    | some size =>
      Except.ok (asciiStr kindB, size, full.drop ((kindB ++ 32 :: decBytes B.length).length + 1)))
    = Except.ok (kindS, B.length, B)
  rw [parse_decBytes]
  show Except.ok (asciiStr kindB, B.length,
    full.drop ((kindB ++ 32 :: decBytes B.length).length + 1)) = Except.ok (kindS, B.length, B)
  rw [h_drop, hascii]

/-- Claim C3: storing any content B under a non-delta kind K through
store_object (canonical header plus deflate-compressed persistence under
the digest identity) and reading the returned identity back through
read_blob yields exactly the kind string of K, the parsed length, and the
content B, for any codec satisfying the zlib round-trip contract. -/
theorem c3_put_raw_get_content_roundtrip (deflate inflate : List Nat → List Nat)
    (hcodec : ∀ b, inflate (deflate b) = b) (K : PackObjectType) (hK : K.is_base = true)
    (B : List Nat) (st : Store) :
    read_blob inflate (store_object deflate K B st).2 (store_object deflate K B st).1 =
      .ok (K.as_str, B.length, B) := by
  cases K with
  | commit =>
    exact read_blob_after_store deflate inflate hcodec (strBytes "commit") "commit" B st
      (by decide) (by decide) (by decide) (by simp) (by decide)
  | tree =>
    exact read_blob_after_store deflate inflate hcodec (strBytes "tree") "tree" B st
      (by decide) (by decide) (by decide) (by simp) (by decide)
  | blob =>
    exact read_blob_after_store deflate inflate hcodec (strBytes "blob") "blob" B st
      (by decide) (by decide) (by decide) (by simp) (by decide)
  | ofsDelta o => exact absurd hK (by simp [PackObjectType.is_base])
  | refDelta s => exact absurd hK (by simp [PackObjectType.is_base])

/-- Claim C3 (witness): the round trip evaluated at kind blob, content
[104, 105], the identity codec and the empty store. -/
theorem c3_witness :
    PackObjectType.is_base .blob = true ∧
    read_blob (fun b => b) (store_object (fun b => b) .blob [104, 105] emptyStore).2
      (store_object (fun b => b) .blob [104, 105] emptyStore).1 =
      .ok ("blob", 2, [104, 105]) :=
  ⟨by decide,
   c3_put_raw_get_content_roundtrip (fun b => b) (fun b => b) (fun _ => rfl) .blob rfl
     [104, 105] emptyStore⟩

/-! ### Claim C7: hash-object on "hello world" plus newline -/

/-- Claim C7 (counterexample): hash-object -w on the 12 bytes
"hello world\x0A" prints 3b18e512dba79e4c8300dd08aeb37f8e728b8dad — the
digest of the canonical form "blob 12 NUL content" — and stores nothing at
the path the claim names; the identity 22596363... claimed by the
specification is the digest of the bare content without the canonical
header and is never produced. -/
theorem c7_claimed_identity_wrong :
    (create_file_hash (fun b => b) (strBytes "hello world\n") true emptyStore).1 ≠
      "22596363b3de40b06f981fb85d82312e8c0ed511" ∧
    (create_file_hash (fun b => b) (strBytes "hello world\n") true emptyStore).1 =
      "3b18e512dba79e4c8300dd08aeb37f8e728b8dad" ∧
    (create_file_hash (fun b => b) (strBytes "hello world\n") true emptyStore).2
      ".git/objects/22/596363b3de40b06f981fb85d82312e8c0ed511" = none := by
  refine ⟨by decide, by decide, by decide⟩

/-- Claim C7 (amended): hash-object -w on a file containing the 12 bytes
"hello world\x0A" prints 3b18e512dba79e4c8300dd08aeb37f8e728b8dad, and
afterwards the store holds a file at
.git/objects/3b/18e512dba79e4c8300dd08aeb37f8e728b8dad whose inflated
content is "blob 12 NUL hello world\x0A", for any codec satisfying the
zlib round-trip contract. -/
theorem c7_hash_object_hello_world (deflate inflate : List Nat → List Nat)
    (hcodec : ∀ b, inflate (deflate b) = b) (st : Store) :
    (create_file_hash deflate (strBytes "hello world\n") true st).1 =
      "3b18e512dba79e4c8300dd08aeb37f8e728b8dad" ∧
    ((create_file_hash deflate (strBytes "hello world\n") true st).2
        ".git/objects/3b/18e512dba79e4c8300dd08aeb37f8e728b8dad").map inflate =
      some (strBytes "blob 12" ++ [0] ++ strBytes "hello world\n") := by
  have hsha : sha1Hex (strBytes "blob " ++ decBytes (strBytes "hello world\n").length ++ [0] ++
      strBytes "hello world\n") = "3b18e512dba79e4c8300dd08aeb37f8e728b8dad" := by decide
  have hpath : objPath "3b18e512dba79e4c8300dd08aeb37f8e728b8dad" =
      ".git/objects/3b/18e512dba79e4c8300dd08aeb37f8e728b8dad" := by decide
  constructor
  · exact hsha
  · show (storeSet st
        (objPath (sha1Hex (strBytes "blob " ++ decBytes (strBytes "hello world\n").length ++
          [0] ++ strBytes "hello world\n")))
        (deflate (strBytes "blob " ++ decBytes (strBytes "hello world\n").length ++ [0] ++
          strBytes "hello world\n"))
        ".git/objects/3b/18e512dba79e4c8300dd08aeb37f8e728b8dad").map inflate =
      some (strBytes "blob 12" ++ [0] ++ strBytes "hello world\n")
    rw [hsha, hpath, storeSet_same]
    show some (inflate (deflate (strBytes "blob " ++
      decBytes (strBytes "hello world\n").length ++ [0] ++ strBytes "hello world\n"))) = _
    rw [hcodec]
    decide

/-- Claim C7 (witness): the amended theorem at the identity codec and the
empty store. -/
theorem c7_witness :
    (create_file_hash (fun b => b) (strBytes "hello world\n") true emptyStore).1 =
      "3b18e512dba79e4c8300dd08aeb37f8e728b8dad" ∧
    ((create_file_hash (fun b => b) (strBytes "hello world\n") true emptyStore).2
        ".git/objects/3b/18e512dba79e4c8300dd08aeb37f8e728b8dad").map (fun b => b) =
      some (strBytes "blob 12" ++ [0] ++ strBytes "hello world\n") :=
  c7_hash_object_hello_world (fun b => b) (fun b => b) (fun _ => rfl) emptyStore

end BuildYourOwnGit
